import Mathlib

/-!
Shallow embedding of `src/librender/integrator.cpp` (Mitsuba 3 fork):
the tile-based render-job orchestrator (`SamplingIntegrator::render`),
the tile sample loop (`render_block`, scalar and packet forms), the
per-sample dispatch (`render_sample`), and the transport-policy
constructor (`MonteCarloIntegrator::MonteCarloIntegrator`).

The embedding is sequential: the tbb worker pool's dequeue sequence is
represented by the list of tiles in the order `spiral.next_block()`
produces them, with the range index `i` of `tbb::parallel_for` running
0, 1, 2, ... along that sequence (the single-threaded schedule).
Machine integers (`size_t`) are modelled as `Nat` with an explicit
`% 2 ^ 64` where the source computes in `size_t`.
-/

namespace Integrator

/-- `(size_t) -1`, the sentinel for "samples_per_pass not configured"
(`integrator.cpp`, line 33). -/
def size_t_max : Nat := 2 ^ 64 - 1

/-- `enoki::hprod` on a 2-vector: product of the components. -/
def hprod (v : Nat × Nat) : Nat := v.1 * v.2

/-- A tile descriptor as produced by `spiral.next_block()`:
pixel offset of the tile and its (possibly boundary-clipped) extent. -/
structure Tile where
  offset : Nat × Nat
  size : Nat × Nat
  deriving Repr, DecidableEq

/-- The effective per-pass sample count computed at `integrator.cpp`
lines 55-56: the sensor's total count when `m_samples_per_pass` still
holds the `(size_t) -1` sentinel, otherwise
`min(m_samples_per_pass, total_spp)`. -/
def effective_spp (m_samples_per_pass total_spp : Nat) : Nat :=
  if m_samples_per_pass = size_t_max then total_spp
  else min m_samples_per_pass total_spp

/-- The divisibility check and pass-count computation of
`integrator.cpp` lines 55-61: `Throw` when the total sample count is
not a multiple of the effective per-pass count, otherwise
`n_passes = total / per_pass` (the source computes
`ceil(total_spp / (ScalarFloat) samples_per_pass)`, which on exactly
divisible operands is the exact quotient). Returns
`(samples_per_pass, n_passes)`. -/
def render_setup (m_samples_per_pass total_spp : Nat) :
    Except String (Nat × Nat) :=
  let samples_per_pass := effective_spp m_samples_per_pass total_spp
  if total_spp % samples_per_pass ≠ 0 then
    Except.error "sample_count must be a multiple of samples_per_pass"
  else
    Except.ok (samples_per_pass, total_spp / samples_per_pass)

/-- The per-tile seed of `integrator.cpp` lines 103-108, computed in
`size_t` arithmetic: `offset.x + offset.y * film_size.x`, plus
`i * hprod(film_size)` when `n_passes > 1`, where `i` is the index of
this dequeue in the `tbb::blocked_range` (in the sequential schedule,
the position of the tile in the dequeue order). -/
def render_seed (film_size : Nat × Nat) (n_passes : Nat)
    (offset : Nat × Nat) (i : Nat) : Nat :=
  (offset.1 + offset.2 * film_size.1 +
    (if 1 < n_passes then i * hprod film_size else 0)) % 2 ^ 64

/-- The seed rule as the specification states it (spec §4.2/§8), kept
separate for comparison with `render_seed`: base seed plus
`pass_index * frame_pixel_count` for multi-pass jobs. -/
def spec_seed (film_size : Nat × Nat) (n_passes : Nat)
    (offset : Nat × Nat) (pass_index : Nat) : Nat :=
  offset.1 + offset.2 * film_size.1 +
    (if 1 < n_passes then pass_index * hprod film_size else 0)

/-- Observable actions of one `render()` run, in program order. -/
inductive Event where
  | configured (n_passes samples_per_pass : Nat)
  | filmClear
  | seedSet (seed : Nat)
  | tileRendered (offset size : Nat × Nat) (samples_per_pass : Nat)
  | filmPut (offset : Nat × Nat)
  deriving Repr, DecidableEq

/-- Result of a `render()` run: normal return carrying the returned
boolean (`!m_stop`), or a thrown error; both carry the events that
happened before the run ended. -/
inductive Outcome where
  | ok (converged : Bool) (events : List Event)
  | err (msg : String) (events : List Event)
  deriving Repr, DecidableEq

/-- The events of an outcome, whether it returned or threw. -/
def Outcome.events : Outcome → List Event
  | Outcome.ok _ evs => evs
  | Outcome.err _ evs => evs

/-- Input of one `render()` invocation: the integrator configuration
(`m_samples_per_pass`, `m_timeout`), the film crop size, the sensor
sampler's total sample count, the dequeue sequence the spiral
scheduler will produce, and the environment: whether an external
`cancel()` has been observed before block `i` starts, and the render
timer's value (seconds) at that point. -/
structure JobInput where
  m_samples_per_pass : Nat
  m_timeout : Rat
  film_size : Nat × Nat
  total_spp : Nat
  tiles : List Tile
  cancelAt : Nat → Bool
  elapsedAt : Nat → Rat

/-- Modelled from the spec: the timeout test inside `should_stop()`
lives in the repository's headers, which are not part of the sources
here; spec §5 says a configured positive timeout races the workers
against the render timer and an expiry "is treated identically to
explicit cancellation (same cooperative-flag mechanism)". -/
def timer_expired (m_timeout elapsed : Rat) : Bool :=
  m_timeout > 0 && elapsed > m_timeout

/-- The cooperative stop condition checked before block `i` starts:
the `m_stop` flag set by `cancel()`, or (modelled from the spec, see
`timer_expired`) expiry of a positive timeout — both routed through
the same flag, so one Boolean observation point. -/
def stop_observed (inp : JobInput) (i : Nat) : Bool :=
  inp.cancelAt i || timer_expired inp.m_timeout (inp.elapsedAt i)

/-- The `m_stop` flag as mutated by `SamplingIntegrator::cancel()`
(`integrator.cpp` lines 40-43): it is simply set. -/
def cancel (m_stop : Bool) : Bool :=
  let _ := m_stop
  true

/-- The block loop of `integrator.cpp` lines 94-119 in the sequential
schedule: before each block the stop condition is checked (loop guard
`!should_stop()`); a dequeued block of zero area throws; otherwise the
sampler is seeded with `render_seed`, the block is rendered and merged
into the film. Exiting the loop because the stop flag was observed
makes `render()` return `!m_stop = false`; exhausting the range with
the flag never observed returns `true`. -/
def renderLoop (inp : JobInput) (n_passes samples_per_pass : Nat) :
    Nat → List Tile → List Event → Outcome
  | _, [], acc => Outcome.ok true acc.reverse
  | i, t :: rest, acc =>
    if stop_observed inp i then Outcome.ok false acc.reverse
    else if hprod t.size = 0 then
      Outcome.err "Internal error -- generated empty image block" acc.reverse
    else
      renderLoop inp n_passes samples_per_pass (i + 1) rest
        (Event.filmPut t.offset ::
         Event.tileRendered t.offset t.size samples_per_pass ::
         Event.seedSet (render_seed inp.film_size n_passes t.offset i) :: acc)

/-- `SamplingIntegrator::render` (scalar path, `integrator.cpp` lines
46-152): validate the pass decomposition (throwing before the film is
cleared and before any tile is touched), clear the film, then run the
block loop over the spiral's dequeue sequence. -/
def render (inp : JobInput) : Outcome :=
  match render_setup inp.m_samples_per_pass inp.total_spp with
  | Except.error msg => Outcome.err msg []
  | Except.ok (samples_per_pass, n_passes) =>
    renderLoop inp n_passes samples_per_pass 0 inp.tiles
      [Event.filmClear, Event.configured n_passes samples_per_pass]

/-- The seeds of a list of events, in order. -/
def seedsOfEvents (evs : List Event) : List Nat :=
  evs.filterMap fun e =>
    match e with
    | Event.seedSet s => some s
    | _ => none

/-- The seeds of a run's `seedSet` events, in order. -/
def seedsOf (o : Outcome) : List Nat :=
  seedsOfEvents o.events

/-- Number of tiles actually rendered in a run. -/
def tilesRenderedCount (evs : List Event) : Nat :=
  (evs.filter fun e =>
    match e with
    | Event.tileRendered _ _ _ => true
    | _ => false).length

/-- Fuel-indexed helper for `morton_decode` (the fuel makes the
recursion structural; `n / 4 < n` guarantees `n` itself is enough). -/
def morton_decode_aux : Nat → Nat → Nat × Nat
  | 0, _ => (0, 0)
  | _ + 1, 0 => (0, 0)
  | fuel + 1, n =>
    let p := morton_decode_aux fuel (n / 4)
    (2 * p.1 + n % 2, 2 * p.2 + n / 2 % 2)

/-- `enoki::morton_decode` on a 2D code: de-interleave the bits, the
even-position bits giving the x coordinate and the odd-position bits
the y coordinate. -/
def morton_decode (n : Nat) : Nat × Nat :=
  morton_decode_aux n n

/-- The per-pass sample count resolved inside `render_block`
(`integrator.cpp` lines 161-164): the sampler's own total count when
the caller passed the `(size_t) -1` sentinel, else the passed count. -/
def render_block_sample_count (sampler_count sample_count_arg : Nat) : Nat :=
  if sample_count_arg = size_t_max then sampler_count else sample_count_arg

/-- One logical call to `render_sample` issued by the tile sample
loop: the (offset-shifted) pixel position, the sample index within
that pixel, and the integer whose reciprocal square root the loop
passed as `diff_scale_factor` (`rsqrt` is injective on positive
arguments, so two factors agree exactly when these integers agree). -/
structure Dispatch where
  pos : Nat × Nat
  sample_index : Nat
  diff_scale_arg : Nat
  deriving Repr, DecidableEq

/-- One lane of the packet-mode tile sample loop: like `Dispatch`,
plus the lane-validity mask under which the call runs. -/
structure PDispatch where
  pos : Nat × Nat
  sample_index : Nat
  diff_scale_arg : Nat
  active : Bool
  deriving Repr, DecidableEq

/-- The scalar tile sample loop of `render_block` (`integrator.cpp`
lines 168-179), in the absence of cancellation (`should_stop()` never
true): for each Morton index below `m_block_size^2`, skip the pixel
with `continue` when the decoded position lies outside the block's
clipped extent, otherwise dispatch every per-pass sample index at the
offset-shifted position. `diff_scale_factor` is
`rsqrt(sampler->sample_count())` (line 166), recorded through its
argument `sampler_count`. -/
def render_block_scalar (m_block_size sampler_count : Nat)
    (offset size : Nat × Nat) (sample_count_arg : Nat) : List Dispatch :=
  let pixel_count := m_block_size * m_block_size
  let sample_count := render_block_sample_count sampler_count sample_count_arg
  (List.range pixel_count).flatMap fun i =>
    let pos := morton_decode i
    if size.1 ≤ pos.1 ∨ size.2 ≤ pos.2 then []
    else
      (List.range sample_count).map fun j =>
        { pos := (pos.1 + offset.1, pos.2 + offset.2),
          sample_index := j, diff_scale_arg := sampler_count }

/-- The packet (vectorized) tile sample loop of `render_block`
(`integrator.cpp` lines 180-186), in the absence of cancellation: one
flat index space of `pixel_count * sample_count` lanes, each lane
decoding its pixel from `index / sample_count` and masking itself out
(`active &= ...`) when that pixel lies outside the block's clipped
extent; the dispatch still happens, under the mask. The lane's sample
index within its pixel is `index % sample_count`. -/
def render_block_packet (m_block_size sampler_count : Nat)
    (offset size : Nat × Nat) (sample_count_arg : Nat) : List PDispatch :=
  let pixel_count := m_block_size * m_block_size
  let sample_count := render_block_sample_count sampler_count sample_count_arg
  (List.range (pixel_count * sample_count)).map fun index =>
    let pos := morton_decode (index / sample_count)
    { pos := (pos.1 + offset.1, pos.2 + offset.2),
      sample_index := index % sample_count,
      diff_scale_arg := sampler_count,
      active := !(decide (size.1 ≤ pos.1) || decide (size.2 ≤ pos.2)) }

/-- The sensor interface consumed by `render_sample`. -/
structure SensorCfg where
  needs_aperture : Bool
  shutter_open : Rat
  shutter_open_time : Rat
  crop_offset : Rat × Rat
  crop_size : Rat × Rat

/-- The kinds of draws a `render_sample` call issues on its sampler. -/
inductive DrawKind where
  | next1d
  | next2d
  deriving Repr, DecidableEq

/-- `Sampler::next_1d`: one variate, cursor advances by one. -/
def next_1d (vals : Nat → Rat) (c : Nat) : Rat × Nat :=
  (vals c, c + 1)

/-- `Sampler::next_2d`: two variates, cursor advances by two. -/
def next_2d (vals : Nat → Rat) (c : Nat) : (Rat × Rat) × Nat :=
  ((vals c, vals (c + 1)), c + 2)

/-- Everything observable about one `render_sample` call: the sample
values it computed, the sampler cursor after the call, and the draws
it issued, in order. -/
structure SampleTrace where
  position_sample : Rat × Rat
  aperture_sample : Rat × Rat
  time : Rat
  wavelength_sample : Rat
  adjusted_position : Rat × Rat
  cursor : Nat
  draws : List DrawKind

/-- `SamplingIntegrator::render_sample` (`integrator.cpp` lines
193-232) up to the external sensor/evaluator calls: jitter the pixel
position with a 2D draw; draw the aperture sample only when the
sensor needs one, else use the centre of the aperture `(.5, .5)`;
draw and scale a time sample only when the shutter interval is
strictly positive, else use the shutter-open instant unmodified; draw
the wavelength sample; normalize the position into crop-relative
coordinates. The sampler is a deterministic stream `vals` read at a
cursor. -/
def render_sample (sensor : SensorCfg) (vals : Nat → Rat) (c0 : Nat)
    (pos : Rat × Rat) : SampleTrace :=
  let r0 := next_2d vals c0
  let position_sample := (pos.1 + r0.1.1, pos.2 + r0.1.2)
  let r1 :=
    if sensor.needs_aperture then
      let r := next_2d vals r0.2
      (r.1, r.2, [DrawKind.next2d])
    else (((1 : Rat) / 2, (1 : Rat) / 2), r0.2, [])
  let r2 :=
    if sensor.shutter_open_time > 0 then
      let r := next_1d vals r1.2.1
      (sensor.shutter_open + r.1 * sensor.shutter_open_time, r.2,
       [DrawKind.next1d])
    else (sensor.shutter_open, r1.2.1, [])
  let r3 := next_1d vals r2.2.1
  { position_sample := position_sample,
    aperture_sample := r1.1,
    time := r2.1,
    wavelength_sample := r3.1,
    adjusted_position :=
      ((position_sample.1 - sensor.crop_offset.1) / sensor.crop_size.1,
       (position_sample.2 - sensor.crop_offset.2) / sensor.crop_size.2),
    cursor := r3.2,
    draws := DrawKind.next2d :: (r1.2.2 ++ r2.2.2 ++ [DrawKind.next1d]) }

/-- `MonteCarloIntegrator::MonteCarloIntegrator` (`integrator.cpp`
lines 244-258): reject `rr_depth <= 0`; reject `max_depth` negative
unless it is exactly `-1`; otherwise store both values unchanged. -/
def monte_carlo_ctor (rr_depth max_depth : Int) :
    Except String (Int × Int) :=
  if rr_depth ≤ 0 then
    Except.error "rr_depth must be set to a value greater than zero"
  else if max_depth < 0 ∧ max_depth ≠ -1 then
    Except.error "max_depth must be set to -1 or a value >= 0"
  else
    Except.ok (rr_depth, max_depth)

/-- A job whose timeout race is rewritten as explicit cancellation:
the timeout is disabled and every checkpoint where it would have
expired instead observes the cancel flag. Spec §5 requires `render`
to be insensitive to this rewriting. -/
def timeout_as_cancel (inp : JobInput) : JobInput :=
  { inp with
    cancelAt := fun i =>
      inp.cancelAt i || timer_expired inp.m_timeout (inp.elapsedAt i),
    m_timeout := -1 }

/-- A 2x2 frame rendered in two passes over two tiles per pass:
`total_spp = 2` against `samples_per_pass = 1` gives `n_passes = 2`,
and the dequeue sequence visits each tile once per pass. -/
def seedEx : JobInput :=
  { m_samples_per_pass := 1, m_timeout := -1, film_size := (2, 2),
    total_spp := 2,
    tiles := [⟨(0, 0), (1, 2)⟩, ⟨(1, 0), (1, 2)⟩,
              ⟨(0, 0), (1, 2)⟩, ⟨(1, 0), (1, 2)⟩],
    cancelAt := fun _ => false, elapsedAt := fun _ => 0 }

/-- A job with `total_spp = 50` and configured `samples_per_pass = 16`
(50 is not a multiple of 16). -/
def ex50 : JobInput :=
  { m_samples_per_pass := 16, m_timeout := -1, film_size := (4, 4),
    total_spp := 50, tiles := [⟨(0, 0), (4, 4)⟩],
    cancelAt := fun _ => false, elapsedAt := fun _ => 0 }

/-- A two-tile job whose second checkpoint observes `cancel()`. -/
def exCancel : JobInput :=
  { m_samples_per_pass := size_t_max, m_timeout := -1,
    film_size := (2, 1), total_spp := 4,
    tiles := [⟨(0, 0), (1, 1)⟩, ⟨(1, 0), (1, 1)⟩],
    cancelAt := fun i => decide (1 ≤ i), elapsedAt := fun _ => 0 }

/-- A one-tile job with a 1-second timeout whose render timer already
reads 2 seconds at the first checkpoint. -/
def exTimeout : JobInput :=
  { m_samples_per_pass := size_t_max, m_timeout := 1,
    film_size := (1, 1), total_spp := 1, tiles := [⟨(0, 0), (1, 1)⟩],
    cancelAt := fun _ => false, elapsedAt := fun _ => 2 }

/-- A job whose second dequeued tile has a zero-width extent. -/
def exZeroTile : JobInput :=
  { m_samples_per_pass := size_t_max, m_timeout := -1,
    film_size := (2, 1), total_spp := 1,
    tiles := [⟨(0, 0), (1, 1)⟩, ⟨(1, 0), (0, 1)⟩],
    cancelAt := fun _ => false, elapsedAt := fun _ => 0 }

/-- A sensor with no aperture sampling and a zero shutter interval. -/
def sensorNoAp : SensorCfg :=
  { needs_aperture := false, shutter_open := 3, shutter_open_time := 0,
    crop_offset := (0, 0), crop_size := (1, 1) }

end Integrator

namespace Integrator

/-- C5: `MonteCarloIntegrator` construction fails exactly when
`rr_depth <= 0` or `max_depth` is negative without being `-1`; every
accepted configuration (`rr_depth >= 1`, `max_depth = -1` or
`>= 0`) is stored unchanged. -/
theorem monte_carlo_ctor_spec (rr md : Int) :
    (monte_carlo_ctor rr md = Except.ok (rr, md) ↔
      (1 ≤ rr ∧ (md = -1 ∨ 0 ≤ md))) ∧
    ((monte_carlo_ctor rr md).isOk = false ↔
      (rr ≤ 0 ∨ (md < 0 ∧ md ≠ -1))) := by
  unfold monte_carlo_ctor
  split_ifs with h1 h2 <;>
    simp [Except.isOk, Except.toBool] <;> omega

/-- Witness for C5 at `rr_depth = 5`, `max_depth = -1`. -/
theorem monte_carlo_ctor_spec_witness :
    monte_carlo_ctor 5 (-1) = Except.ok (5, -1) :=
  (monte_carlo_ctor_spec 5 (-1)).1.mpr (by norm_num)

/-- C10: the effective per-pass sample count is
`min(m_samples_per_pass, total_spp)`; the `(size_t) -1` sentinel
resolves to the full total; and a configured count at or above the
total is clamped to the total without a configuration error, yielding
exactly one pass. -/
theorem effective_spp_clamp (m_samples_per_pass total_spp : Nat)
    (h : 0 < total_spp) (hle : total_spp ≤ size_t_max) :
    effective_spp m_samples_per_pass total_spp =
      min m_samples_per_pass total_spp ∧
    effective_spp size_t_max total_spp = total_spp ∧
    (total_spp ≤ m_samples_per_pass →
      render_setup m_samples_per_pass total_spp =
        Except.ok (total_spp, 1)) := by
  refine ⟨?_, ?_, ?_⟩
  · unfold effective_spp
    split_ifs with hs
    · subst hs
      exact (Nat.min_eq_right hle).symm
    · rfl
  · simp [effective_spp]
  · intro hge
    have heff : effective_spp m_samples_per_pass total_spp = total_spp := by
      unfold effective_spp
      split_ifs with hs
      · rfl
      · exact Nat.min_eq_right hge
    unfold render_setup
    rw [heff]
    simp [Nat.mod_self, Nat.div_self h]

/-- Witness for C10: configured 100 samples per pass against a total
of 7 is clamped to 7 and accepted as a single pass. -/
theorem effective_spp_clamp_witness :
    render_setup 100 7 = Except.ok (7, 1) :=
  (effective_spp_clamp 100 7 (by norm_num) (by norm_num [size_t_max])).2.2
    (by norm_num)

/-- C7: the aperture sample is a stream draw exactly when the sensor
needs one (the centre `(1/2, 1/2)` otherwise), the time sample is a
stream draw exactly when the shutter interval is strictly positive
(the shutter-open instant otherwise), and the sampler cursor advances
by exactly two slots per 2D draw and one per 1D draw — so a sensor
that skips a draw consumes that much less of the stream. -/
theorem render_sample_gating (sensor : SensorCfg) (vals : Nat → Rat)
    (c0 : Nat) (pos : Rat × Rat) :
    ((render_sample sensor vals c0 pos).draws.count DrawKind.next2d =
      if sensor.needs_aperture then 2 else 1) ∧
    ((render_sample sensor vals c0 pos).draws.count DrawKind.next1d =
      if sensor.shutter_open_time > 0 then 2 else 1) ∧
    (sensor.needs_aperture = false →
      (render_sample sensor vals c0 pos).aperture_sample =
        ((1 : Rat) / 2, (1 : Rat) / 2)) ∧
    (¬ sensor.shutter_open_time > 0 →
      (render_sample sensor vals c0 pos).time = sensor.shutter_open) ∧
    ((render_sample sensor vals c0 pos).cursor =
      c0 + 2 * (render_sample sensor vals c0 pos).draws.count DrawKind.next2d
         + (render_sample sensor vals c0 pos).draws.count DrawKind.next1d) := by
  cases hap : sensor.needs_aperture <;>
    by_cases hsh : sensor.shutter_open_time > 0 <;>
      simp [render_sample, next_1d, next_2d, hap, hsh, List.count_cons,
        List.count_append]

/-- Witness for C7: a sensor with no aperture sampling and a zero
shutter interval draws one 2D and one 1D sample, uses the aperture
centre and the shutter-open instant, and advances the cursor by 3. -/
theorem render_sample_gating_witness :
    (render_sample sensorNoAp (fun n => (n : Rat)) 0 (0, 0)).aperture_sample =
      ((1 : Rat) / 2, (1 : Rat) / 2) ∧
    (render_sample sensorNoAp (fun n => (n : Rat)) 0 (0, 0)).time = 3 ∧
    (render_sample sensorNoAp (fun n => (n : Rat)) 0 (0, 0)).cursor = 3 := by
  have h := render_sample_gating sensorNoAp (fun n => (n : Rat)) 0 (0, 0)
  refine ⟨h.2.2.1 rfl, ?_, ?_⟩
  · have ht := h.2.2.2.1 (by norm_num [sensorNoAp])
    simpa [sensorNoAp] using ht
  · have hc := h.2.2.2.2
    have h2 := h.1
    have h1 := h.2.1
    rw [hc, h1, h2]
    norm_num [sensorNoAp]

/-- Every run's event list extends the accumulator it started from:
`renderLoop` only ever appends events. -/
theorem renderLoop_events_prefix (inp : JobInput) (n_passes spp : Nat) :
    ∀ ts i acc, ∃ tail,
      (renderLoop inp n_passes spp i ts acc).events = acc.reverse ++ tail := by
  intro ts
  induction ts with
  | nil =>
    intro i acc
    exact ⟨[], by simp [renderLoop, Outcome.events]⟩
  | cons t rest ih =>
    intro i acc
    unfold renderLoop
    split_ifs with h1 h2
    · exact ⟨[], by simp [Outcome.events]⟩
    · exact ⟨[], by simp [Outcome.events]⟩
    · obtain ⟨tail, htail⟩ := ih (i + 1)
        (Event.filmPut t.offset ::
         Event.tileRendered t.offset t.size spp ::
         Event.seedSet (render_seed inp.film_size n_passes t.offset i) :: acc)
      refine ⟨Event.seedSet (render_seed inp.film_size n_passes t.offset i) ::
        Event.tileRendered t.offset t.size spp ::
        Event.filmPut t.offset :: tail, ?_⟩
      rw [htail]
      simp

/-- C4: when the total sample count is not a multiple of the effective
per-pass count, `render` throws with nothing done — no film clear, no
tile; when it is a multiple, the run is configured with exactly
`total / per_pass` passes of `per_pass` samples each before the film
is cleared. -/
theorem render_pass_validation (inp : JobInput) (h : 0 < inp.total_spp) :
    (inp.total_spp % effective_spp inp.m_samples_per_pass inp.total_spp ≠ 0 →
      ∃ msg, render inp = Outcome.err msg []) ∧
    (inp.total_spp % effective_spp inp.m_samples_per_pass inp.total_spp = 0 →
      (render inp).events.take 2 =
        [Event.configured
           (inp.total_spp / effective_spp inp.m_samples_per_pass inp.total_spp)
           (effective_spp inp.m_samples_per_pass inp.total_spp),
         Event.filmClear]) := by
  constructor
  · intro hne
    refine ⟨"sample_count must be a multiple of samples_per_pass", ?_⟩
    unfold render render_setup
    simp only [hne, if_true]
    simp [hne]
  · intro heq
    unfold render render_setup
    simp only [heq]
    simp only [ne_eq, not_true_eq_false, if_false, not_not]
    have hpre := renderLoop_events_prefix inp
      (inp.total_spp / effective_spp inp.m_samples_per_pass inp.total_spp)
      (effective_spp inp.m_samples_per_pass inp.total_spp)
      inp.tiles 0
      [Event.filmClear,
       Event.configured
         (inp.total_spp / effective_spp inp.m_samples_per_pass inp.total_spp)
         (effective_spp inp.m_samples_per_pass inp.total_spp)]
    obtain ⟨tail, htail⟩ := hpre
    simp only [List.reverse_cons, List.reverse_nil] at htail
    rw [htail]
    rfl

/-- Witness for C4: `total_spp = 50` with configured per-pass 16
throws before any work. -/
theorem render_pass_validation_witness :
    ∃ msg, render ex50 = Outcome.err msg [] :=
  (render_pass_validation ex50 (by norm_num [ex50])).1 (by decide)

/-- When every dequeued tile has positive area, the block loop
returns normally, and the returned boolean is `true` exactly when the
stop flag was observed at none of its checkpoints. -/
theorem renderLoop_ok_of_tiles (inp : JobInput) (n_passes spp : Nat) :
    ∀ ts i acc, (∀ t, t ∈ ts → hprod t.size ≠ 0) →
      ∃ evs, renderLoop inp n_passes spp i ts acc =
        Outcome.ok
          (decide (∀ j, j < ts.length → stop_observed inp (i + j) = false))
          evs := by
  intro ts
  induction ts with
  | nil =>
    intro i acc _
    refine ⟨acc.reverse, ?_⟩
    have hd : decide (∀ j, j < ([] : List Tile).length →
        stop_observed inp (i + j) = false) = true :=
      decide_eq_true (by intro j hj; exact absurd hj (by simp))
    rw [hd]
    rfl
  | cons t rest ih =>
    intro i acc htiles
    by_cases hstop : stop_observed inp i = true
    · refine ⟨acc.reverse, ?_⟩
      have hd : decide (∀ j, j < (t :: rest).length →
          stop_observed inp (i + j) = false) = false := by
        refine decide_eq_false ?_
        intro hall
        have h0 := hall 0 (Nat.succ_pos _)
        rw [Nat.add_zero, hstop] at h0
        exact Bool.noConfusion h0
      rw [hd]
      unfold renderLoop
      rw [if_pos hstop]
    · rw [Bool.not_eq_true] at hstop
      have hne : hprod t.size ≠ 0 := htiles t (List.mem_cons_self t rest)
      obtain ⟨evs, hevs⟩ := ih (i + 1)
        (Event.filmPut t.offset ::
         Event.tileRendered t.offset t.size spp ::
         Event.seedSet (render_seed inp.film_size n_passes t.offset i) :: acc)
        (fun u hu => htiles u (List.mem_cons_of_mem t hu))
      refine ⟨evs, ?_⟩
      have hd : decide (∀ j, j < (t :: rest).length →
            stop_observed inp (i + j) = false) =
          decide (∀ j, j < rest.length →
            stop_observed inp (i + 1 + j) = false) := by
        apply decide_eq_decide.mpr
        constructor
        · intro hp j hj
          have := hp (j + 1) (by simp only [List.length_cons]; omega)
          rwa [show i + (j + 1) = i + 1 + j by omega] at this
        · intro hq j hj
          rcases j with _ | j'
          · rw [Nat.add_zero]
            exact hstop
          · have hj' : j' < rest.length := by
              simp only [List.length_cons] at hj
              omega
            have := hq j' hj'
            rwa [show i + (j' + 1) = i + 1 + j' by omega]
      rw [hd]
      unfold renderLoop
      rw [if_neg (by rw [hstop]; exact Bool.noConfusion), if_neg hne]
      exact hevs

/-- C6: `render` returns normally with `true` exactly when the stop
flag was observed at no checkpoint of the run — a run interrupted by
`cancel()` returns `false` through the normal path, not an error —
and `cancel()` is idempotent: setting the already-set flag changes
nothing. -/
theorem render_cancel_spec (inp : JobInput)
    (hdiv : inp.total_spp %
      effective_spp inp.m_samples_per_pass inp.total_spp = 0)
    (htiles : ∀ t, t ∈ inp.tiles → hprod t.size ≠ 0) :
    (∃ evs, render inp =
      Outcome.ok
        (decide (∀ i, i < inp.tiles.length → stop_observed inp i = false))
        evs) ∧
    (∀ b : Bool, cancel (cancel b) = cancel b) := by
  constructor
  · unfold render render_setup
    simp only [hdiv]
    simp only [ne_eq, not_true_eq_false, if_false, not_not]
    obtain ⟨evs, hevs⟩ := renderLoop_ok_of_tiles inp
      (inp.total_spp / effective_spp inp.m_samples_per_pass inp.total_spp)
      (effective_spp inp.m_samples_per_pass inp.total_spp)
      inp.tiles 0
      [Event.filmClear,
       Event.configured
         (inp.total_spp / effective_spp inp.m_samples_per_pass inp.total_spp)
         (effective_spp inp.m_samples_per_pass inp.total_spp)]
      htiles
    refine ⟨evs, ?_⟩
    rw [hevs]
    congr 1
    apply decide_eq_decide.mpr
    constructor
    · intro hq j hj
      have := hq j hj
      rwa [Nat.zero_add] at this
    · intro hp j hj
      rw [Nat.zero_add]
      exact hp j hj
  · intro b
    rfl

/-- Witness for C6: a two-tile job cancelled before its second tile
returns `false` through the normal path. -/
theorem render_cancel_spec_witness :
    ∃ evs, render exCancel = Outcome.ok false evs :=
  (render_cancel_spec exCancel (by decide) (by decide)).1

/-- Tiles recorded as rendered by the block loop all have positive
extent: a `tileRendered` event is only appended after the
`hprod size = 0` check has passed. -/
theorem renderLoop_rendered_pos (inp : JobInput) (n_passes spp : Nat) :
    ∀ ts i acc,
      (∀ off sz s, Event.tileRendered off sz s ∈ acc →
        0 < sz.1 ∧ 0 < sz.2) →
      ∀ off sz s,
        Event.tileRendered off sz s ∈
          (renderLoop inp n_passes spp i ts acc).events →
        0 < sz.1 ∧ 0 < sz.2 := by
  intro ts
  induction ts with
  | nil =>
    intro i acc hacc off sz s hmem
    unfold renderLoop at hmem
    simp only [Outcome.events, List.mem_reverse] at hmem
    exact hacc off sz s hmem
  | cons t rest ih =>
    intro i acc hacc off sz s hmem
    unfold renderLoop at hmem
    split_ifs at hmem with h1 h2
    · simp only [Outcome.events, List.mem_reverse] at hmem
      exact hacc off sz s hmem
    · simp only [Outcome.events, List.mem_reverse] at hmem
      exact hacc off sz s hmem
    · refine ih (i + 1) _ ?_ off sz s hmem
      intro off' sz' s' hmem'
      simp only [List.mem_cons, Event.tileRendered.injEq] at hmem'
      rcases hmem' with hmem' | ⟨h1', h2', h3'⟩ | hmem' | hmem'
      · exact absurd hmem' (by simp)
      · subst h2'
        have hmul : t.size.1 ≠ 0 ∧ t.size.2 ≠ 0 := by
          rw [← Nat.mul_ne_zero_iff]
          exact fun hz => h2 hz
        exact ⟨Nat.pos_of_ne_zero hmul.1, Nat.pos_of_ne_zero hmul.2⟩
      · exact absurd hmem' (by simp)
      · exact hacc off' sz' s' hmem'

/-- Dequeuing a zero-area tile makes the block loop throw, provided
the stop flag was not observed first and the earlier tiles in the
dequeue sequence were well-formed. -/
theorem renderLoop_err_of_zero (inp : JobInput) (n_passes spp : Nat) :
    ∀ pre t rest i acc,
      (∀ u, u ∈ pre → hprod u.size ≠ 0) →
      hprod t.size = 0 →
      (∀ j, j ≤ pre.length → stop_observed inp (i + j) = false) →
      ∃ evs, renderLoop inp n_passes spp i (pre ++ t :: rest) acc =
        Outcome.err "Internal error -- generated empty image block" evs := by
  intro pre
  induction pre with
  | nil =>
    intro t rest i acc _ hzero hstop
    have h0 : stop_observed inp i = false := by
      have := hstop 0 (Nat.zero_le _)
      rwa [Nat.add_zero] at this
    refine ⟨acc.reverse, ?_⟩
    rw [List.nil_append]
    simp only [renderLoop]
    rw [if_neg (by rw [h0]; exact Bool.noConfusion), if_pos hzero]
  | cons u pre' ih =>
    intro t rest i acc hpre hzero hstop
    have h0 : stop_observed inp i = false := by
      have := hstop 0 (Nat.zero_le _)
      rwa [Nat.add_zero] at this
    have hu : hprod u.size ≠ 0 := hpre u (List.mem_cons_self u pre')
    have hrec := ih t rest (i + 1)
      (Event.filmPut u.offset ::
       Event.tileRendered u.offset u.size spp ::
       Event.seedSet (render_seed inp.film_size n_passes u.offset i) :: acc)
      (fun v hv => hpre v (List.mem_cons_of_mem u hv))
      hzero
      (by
        intro j hj
        have := hstop (j + 1) (by simp only [List.length_cons]; omega)
        rwa [show i + (j + 1) = i + 1 + j by omega] at this)
    obtain ⟨evs, hevs⟩ := hrec
    refine ⟨evs, ?_⟩
    rw [List.cons_append]
    simp only [renderLoop]
    rw [if_neg (by rw [h0]; exact Bool.noConfusion), if_neg hu]
    exact hevs

/-- C8: a dequeued tile descriptor of zero area makes `render` throw
the internal-consistency error (it is not silently skipped), and —
for any run whatsoever — every tile recorded as rendered has strictly
positive extent in both dimensions. -/
theorem render_zero_tile_spec :
    (∀ inp : JobInput, ∀ off sz s,
      Event.tileRendered off sz s ∈ (render inp).events →
        0 < sz.1 ∧ 0 < sz.2) ∧
    (∀ inp : JobInput, ∀ pre t rest,
      inp.tiles = pre ++ t :: rest →
      inp.total_spp %
        effective_spp inp.m_samples_per_pass inp.total_spp = 0 →
      (∀ u, u ∈ pre → hprod u.size ≠ 0) →
      hprod t.size = 0 →
      (∀ j, j ≤ pre.length → stop_observed inp j = false) →
      ∃ evs, render inp =
        Outcome.err "Internal error -- generated empty image block" evs) := by
  constructor
  · intro inp off sz s hmem
    unfold render at hmem
    cases hsetup : render_setup inp.m_samples_per_pass inp.total_spp with
    | error msg =>
      rw [hsetup] at hmem
      simp [Outcome.events] at hmem
    | ok pair =>
      obtain ⟨spp, np⟩ := pair
      rw [hsetup] at hmem
      refine renderLoop_rendered_pos inp np spp inp.tiles 0 _ ?_ off sz s hmem
      intro off' sz' s' hmem'
      exact absurd hmem' (by simp)
  · intro inp pre t rest hsplit hdiv hpre hzero hstop
    unfold render render_setup
    simp only [hdiv]
    simp only [ne_eq, not_true_eq_false, if_false, not_not]
    rw [hsplit]
    exact renderLoop_err_of_zero inp
      (inp.total_spp / effective_spp inp.m_samples_per_pass inp.total_spp)
      (effective_spp inp.m_samples_per_pass inp.total_spp)
      pre t rest 0 _ hpre hzero
      (by intro j hj; rw [Nat.zero_add]; exact hstop j hj)

/-- Witness for C8: a job whose second tile has zero width throws the
internal-consistency error. -/
theorem render_zero_tile_spec_witness :
    ∃ evs, render exZeroTile =
      Outcome.err "Internal error -- generated empty image block" evs :=
  render_zero_tile_spec.2 exZeroTile [⟨(0, 0), (1, 1)⟩] ⟨(1, 0), (0, 1)⟩ []
    rfl (by decide) (by decide) (by decide) (by decide)

/-- The block loop is insensitive to anything in the job input beyond
the film size and the per-checkpoint stop observations. -/
theorem renderLoop_stop_congr (inp inp' : JobInput)
    (hfs : inp.film_size = inp'.film_size)
    (hstop : ∀ i, stop_observed inp i = stop_observed inp' i)
    (n_passes spp : Nat) :
    ∀ ts i acc, renderLoop inp n_passes spp i ts acc =
      renderLoop inp' n_passes spp i ts acc := by
  intro ts
  induction ts with
  | nil =>
    intro i acc
    rfl
  | cons t rest ih =>
    intro i acc
    simp only [renderLoop]
    rw [hstop i, hfs]
    split_ifs with h1 h2
    · rfl
    · rfl
    · exact ih (i + 1) _

/-- Reversing the accumulator does not change how many tiles it
records as rendered. -/
theorem tilesRenderedCount_reverse (evs : List Event) :
    tilesRenderedCount evs.reverse = tilesRenderedCount evs := by
  unfold tilesRenderedCount
  rw [List.filter_reverse, List.length_reverse]

/-- If the stop flag is observed at checkpoint `i + j`, the block
loop renders at most `j` further tiles beyond those already in the
accumulator. -/
theorem renderLoop_count_le (inp : JobInput) (n_passes spp : Nat) :
    ∀ ts i acc j, j < ts.length → stop_observed inp (i + j) = true →
      tilesRenderedCount (renderLoop inp n_passes spp i ts acc).events ≤
        tilesRenderedCount acc + j := by
  intro ts
  induction ts with
  | nil =>
    intro i acc j hj _
    exact absurd hj (by simp)
  | cons t rest ih =>
    intro i acc j hj hstopj
    simp only [renderLoop]
    by_cases h1 : stop_observed inp i = true
    · rw [if_pos h1]
      simp only [Outcome.events]
      rw [tilesRenderedCount_reverse]
      omega
    · rw [if_neg h1]
      rw [Bool.not_eq_true] at h1
      rcases j with _ | j'
      · rw [Nat.add_zero] at hstopj
        rw [h1] at hstopj
        exact Bool.noConfusion hstopj
      · by_cases h2 : hprod t.size = 0
        · rw [if_pos h2]
          simp only [Outcome.events]
          rw [tilesRenderedCount_reverse]
          omega
        · rw [if_neg h2]
          have hrec := ih (i + 1)
            (Event.filmPut t.offset ::
             Event.tileRendered t.offset t.size spp ::
             Event.seedSet (render_seed inp.film_size n_passes t.offset i)
               :: acc)
            j'
            (by simp only [List.length_cons] at hj; omega)
            (by rwa [show i + 1 + j' = i + (j' + 1) by omega])
          have hacc : tilesRenderedCount
              (Event.filmPut t.offset ::
               Event.tileRendered t.offset t.size spp ::
               Event.seedSet (render_seed inp.film_size n_passes t.offset i)
                 :: acc) = tilesRenderedCount acc + 1 := by
            simp [tilesRenderedCount, List.filter]
          rw [hacc] at hrec
          omega

/-- C3: `render` is insensitive to rewriting a configured timeout as
explicit cancellation at exactly the checkpoints where it would have
expired (same cooperative-flag mechanism); and when a positive
timeout has expired by checkpoint `k` of a run with no explicit
`cancel()`, `render` returns `false` through the normal path with at
most `k` tiles rendered — no new tile starts after expiry. -/
theorem render_timeout_spec :
    (∀ inp : JobInput, render inp = render (timeout_as_cancel inp)) ∧
    (∀ inp : JobInput, ∀ k : Nat,
      inp.total_spp %
        effective_spp inp.m_samples_per_pass inp.total_spp = 0 →
      (∀ t, t ∈ inp.tiles → hprod t.size ≠ 0) →
      k < inp.tiles.length →
      inp.cancelAt = (fun _ => false) →
      0 < inp.m_timeout →
      inp.m_timeout < inp.elapsedAt k →
      ∃ evs, render inp = Outcome.ok false evs ∧
        tilesRenderedCount evs ≤ k) := by
  constructor
  · intro inp
    unfold render
    have hm : (timeout_as_cancel inp).m_samples_per_pass =
        inp.m_samples_per_pass := rfl
    have ht : (timeout_as_cancel inp).total_spp = inp.total_spp := rfl
    rw [hm, ht]
    cases hs : render_setup inp.m_samples_per_pass inp.total_spp with
    | error msg => rfl
    | ok pair =>
      obtain ⟨spp, np⟩ := pair
      apply renderLoop_stop_congr
      · rfl
      · intro i
        unfold stop_observed timeout_as_cancel timer_expired
        simp only
        have hneg : decide ((-1 : Rat) > 0) = false := by
          rw [decide_eq_false]
          norm_num
        rw [hneg]
        simp
  · intro inp k hdiv htiles hk hcancel hpos hgt
    have hexp : timer_expired inp.m_timeout (inp.elapsedAt k) = true := by
      unfold timer_expired
      rw [decide_eq_true hpos, decide_eq_true hgt]
      rfl
    have hstopk : stop_observed inp k = true := by
      unfold stop_observed
      rw [hcancel, hexp]
      rfl
    unfold render render_setup
    simp only [hdiv]
    simp only [ne_eq, not_true_eq_false, if_false, not_not]
    obtain ⟨evs, hevs⟩ := renderLoop_ok_of_tiles inp
      (inp.total_spp / effective_spp inp.m_samples_per_pass inp.total_spp)
      (effective_spp inp.m_samples_per_pass inp.total_spp)
      inp.tiles 0
      [Event.filmClear,
       Event.configured
         (inp.total_spp / effective_spp inp.m_samples_per_pass inp.total_spp)
         (effective_spp inp.m_samples_per_pass inp.total_spp)]
      htiles
    have hb : decide (∀ j, j < inp.tiles.length →
        stop_observed inp (0 + j) = false) = false := by
      apply decide_eq_false
      intro hall
      have := hall k hk
      rw [Nat.zero_add, hstopk] at this
      exact Bool.noConfusion this
    have hcount := renderLoop_count_le inp
      (inp.total_spp / effective_spp inp.m_samples_per_pass inp.total_spp)
      (effective_spp inp.m_samples_per_pass inp.total_spp)
      inp.tiles 0
      [Event.filmClear,
       Event.configured
         (inp.total_spp / effective_spp inp.m_samples_per_pass inp.total_spp)
         (effective_spp inp.m_samples_per_pass inp.total_spp)]
      k hk (by rwa [Nat.zero_add])
    rw [hevs] at hcount ⊢
    simp only [Outcome.events] at hcount
    rw [hb]
    refine ⟨evs, rfl, ?_⟩
    have hacc0 : tilesRenderedCount
        [Event.filmClear,
         Event.configured
           (inp.total_spp / effective_spp inp.m_samples_per_pass inp.total_spp)
           (effective_spp inp.m_samples_per_pass inp.total_spp)] = 0 := by
      simp [tilesRenderedCount, List.filter]
    rw [hacc0] at hcount
    omega

/-- Witness for C3: a one-tile job with a 1-second timeout whose
timer already reads 2 seconds returns `false` with no tile rendered. -/
theorem render_timeout_spec_witness :
    ∃ evs, render exTimeout = Outcome.ok false evs ∧
      tilesRenderedCount evs ≤ 0 :=
  render_timeout_spec.2 exTimeout 0 (by decide) (by decide) (by decide) rfl
    (by norm_num [exTimeout]) (by norm_num [exTimeout])

/-- The seeds recorded by an uninterrupted block loop, in dequeue
order: each tile at dequeue position `i` is seeded with
`render_seed` at that position. -/
theorem renderLoop_seeds (inp : JobInput) (n_passes spp : Nat) :
    ∀ ts i acc,
      (∀ j, j < ts.length → stop_observed inp (i + j) = false) →
      (∀ t, t ∈ ts → hprod t.size ≠ 0) →
      seedsOfEvents (renderLoop inp n_passes spp i ts acc).events =
        seedsOfEvents acc.reverse ++
          (List.enumFrom i ts).map
            (fun p => render_seed inp.film_size n_passes p.2.offset p.1) := by
  intro ts
  induction ts with
  | nil =>
    intro i acc _ _
    simp [renderLoop, Outcome.events, List.enumFrom]
  | cons t rest ih =>
    intro i acc hstop htiles
    have h0 : stop_observed inp i = false := by
      have := hstop 0 (Nat.succ_pos _)
      rwa [Nat.add_zero] at this
    have hne : hprod t.size ≠ 0 := htiles t (List.mem_cons_self t rest)
    simp only [renderLoop]
    rw [if_neg (by rw [h0]; exact Bool.noConfusion), if_neg hne]
    rw [ih (i + 1) _
      (by
        intro j hj
        have := hstop (j + 1) (by simp only [List.length_cons]; omega)
        rwa [show i + (j + 1) = i + 1 + j by omega] at this)
      (fun u hu => htiles u (List.mem_cons_of_mem t hu))]
    have hsplit : seedsOfEvents
        ((Event.filmPut t.offset ::
          Event.tileRendered t.offset t.size spp ::
          Event.seedSet (render_seed inp.film_size n_passes t.offset i) ::
          acc).reverse) =
        seedsOfEvents acc.reverse ++
          [render_seed inp.film_size n_passes t.offset i] := by
      simp [seedsOfEvents, List.filterMap_append]
    rw [hsplit]
    simp [List.enumFrom, List.append_assoc]

/-- C1 counterexample: in a two-pass job over a 2x2 frame with two
tiles per pass, the second dequeued tile (offset `(1, 0)`, pass 0)
is seeded with `1 + 1 * hprod(film_size) = 5`, while the claimed
formula `offset.x + offset.y * frame_width + pass_index *
frame_pixel_count` gives 1: the multi-pass term uses the global
dequeue index, not the pass index. -/
theorem render_seed_counterexample :
    seedsOf (render seedEx) = [0, 5, 8, 13] ∧
    spec_seed seedEx.film_size 2 (1, 0) 0 = 1 ∧
    (seedsOf (render seedEx))[1]? ≠
      some (spec_seed seedEx.film_size 2 (1, 0) 0) := by
  refine ⟨by decide, by decide, by decide⟩

/-- C1 amended: for an uninterrupted run, the seed of the tile at
dequeue position `i` is `offset.x + offset.y * frame_width` in
`size_t` arithmetic, plus — when the job has more than one pass —
`i * frame_pixel_count` where `i` is the global dequeue (block)
index, not the pass index; single-pass jobs match the claim. -/
theorem render_seed_rule (inp : JobInput) (samples_per_pass n_passes : Nat)
    (hsetup : render_setup inp.m_samples_per_pass inp.total_spp =
      Except.ok (samples_per_pass, n_passes))
    (hstop : ∀ i, i < inp.tiles.length → stop_observed inp i = false)
    (htiles : ∀ t, t ∈ inp.tiles → hprod t.size ≠ 0) :
    seedsOf (render inp) =
      inp.tiles.enum.map
        (fun p => render_seed inp.film_size n_passes p.2.offset p.1) := by
  unfold render
  rw [hsetup]
  unfold seedsOf
  rw [renderLoop_seeds inp n_passes samples_per_pass inp.tiles 0 _
    (by intro j hj; rw [Nat.zero_add]; exact hstop j hj) htiles]
  have hnil : seedsOfEvents
      ([Event.filmClear,
        Event.configured n_passes samples_per_pass].reverse) = [] := rfl
  rw [hnil, List.nil_append]
  rfl

/-- Witness for C1 amended: the two-pass job `seedEx` follows the
dequeue-indexed rule at every tile. -/
theorem render_seed_rule_witness :
    seedsOf (render seedEx) =
      seedEx.tiles.enum.map
        (fun p => render_seed seedEx.film_size 2 p.2.offset p.1) :=
  render_seed_rule seedEx 1 2 rfl (by decide) (by decide)

/-- C2 counterexample: a multi-pass invocation of the tile sample
loop (sampler total count 64, per-pass budget 16) hands every
dispatch the scale argument 64 — the factor is `1/sqrt(64)`, not the
claimed `1/sqrt(16)`, and those two reals differ. -/
theorem diff_scale_counterexample :
    ((render_block_scalar 1 64 (0, 0) (1, 1) 16).map
        fun e => e.diff_scale_arg) = List.replicate 16 64 ∧
    (64 : Nat) ≠ 16 ∧
    1 / Real.sqrt 64 ≠ 1 / Real.sqrt 16 := by
  refine ⟨by decide, by decide, ?_⟩
  have h64 : Real.sqrt 64 = 8 := by
    rw [show (64 : ℝ) = 8 ^ 2 by norm_num]
    exact Real.sqrt_sq (by norm_num)
  have h16 : Real.sqrt 16 = 4 := by
    rw [show (16 : ℝ) = 4 ^ 2 by norm_num]
    exact Real.sqrt_sq (by norm_num)
  rw [h64, h16]
  norm_num

/-- C2 amended: every dispatch of the tile sample loop — scalar or
packet — carries the differential-ray scale factor
`1/sqrt(sampler->sample_count())`, built from the sampler's total
per-pixel sample count; this coincides with `1/sqrt(samples_per_pass)`
exactly when the job is single-pass. -/
theorem diff_scale_arg_spec (m_block_size sampler_count : Nat)
    (offset size : Nat × Nat) (sample_count_arg : Nat) :
    (∀ e, e ∈ render_block_scalar m_block_size sampler_count offset size
        sample_count_arg → e.diff_scale_arg = sampler_count) ∧
    (∀ e, e ∈ render_block_packet m_block_size sampler_count offset size
        sample_count_arg → e.diff_scale_arg = sampler_count) := by
  constructor
  · intro e he
    unfold render_block_scalar at he
    simp only [List.mem_flatMap, List.mem_range] at he
    obtain ⟨i, _, hi⟩ := he
    split_ifs at hi
    · simp at hi
    · simp only [List.mem_map, List.mem_range] at hi
      obtain ⟨j, _, hj⟩ := hi
      rw [← hj]
  · intro e he
    unfold render_block_packet at he
    simp only [List.mem_map, List.mem_range] at he
    obtain ⟨idx, _, hidx⟩ := he
    rw [← hidx]

/-- Witness for C2 amended: the single dispatch of a 1x1 block with a
4-sample sampler carries scale argument 4. -/
theorem diff_scale_arg_spec_witness :
    Dispatch.diff_scale_arg
      { pos := (0, 0), sample_index := 0, diff_scale_arg := 4 } = 4 :=
  (diff_scale_arg_spec 1 4 (0, 0) (1, 1) 4).1
    { pos := (0, 0), sample_index := 0, diff_scale_arg := 4 } (by decide)

/-- A flat index range factors into the nested pixel/sample ranges:
`range (P * S)` is the dequeue order `i * S + j` over pixels `i` and
samples `j`. -/
theorem range_mul_flatMap (P S : Nat) :
    List.range (P * S) =
      (List.range P).flatMap fun i =>
        (List.range S).map fun j => i * S + j := by
  induction P with
  | zero => simp
  | succ P ih =>
    rw [Nat.succ_mul, List.range_add, List.range_succ, List.flatMap_append,
      ← ih, List.flatMap_cons, List.flatMap_nil, List.append_nil]

/-- Filtering then mapping distributes over a flatMap. -/
theorem filter_map_flatMap {α β γ : Type} (l : List α) (h : α → List β)
    (p : β → Bool) (q : β → γ) :
    ((l.flatMap h).filter p).map q =
      l.flatMap fun a => ((h a).filter p).map q := by
  induction l with
  | nil => rfl
  | cons a l ih =>
    rw [List.flatMap_cons, List.filter_append, List.map_append, ih,
      List.flatMap_cons]

/-- The generalized form of C9, over an arbitrary pixel count `P`,
per-pass sample budget `S` and scale argument: the packet loop's
active lanes, projected to (position, sample index), are exactly the
scalar loop's dispatches in the same order. -/
theorem packet_scalar_core (P S dsa : Nat) (offset size : Nat × Nat) :
    (((List.range (P * S)).map fun index =>
        ({ pos := ((morton_decode (index / S)).1 + offset.1,
                   (morton_decode (index / S)).2 + offset.2),
           sample_index := index % S, diff_scale_arg := dsa,
           active := !(decide (size.1 ≤ (morton_decode (index / S)).1) ||
                       decide (size.2 ≤ (morton_decode (index / S)).2)) }
          : PDispatch)).filter (fun e => e.active)).map
        (fun e => (e.pos, e.sample_index)) =
      ((List.range P).flatMap fun i =>
        if size.1 ≤ (morton_decode i).1 ∨ size.2 ≤ (morton_decode i).2 then
          ([] : List Dispatch)
        else
          (List.range S).map fun j =>
            ({ pos := ((morton_decode i).1 + offset.1,
                       (morton_decode i).2 + offset.2),
               sample_index := j, diff_scale_arg := dsa } : Dispatch)).map
        (fun e => (e.pos, e.sample_index)) := by
  rcases Nat.eq_zero_or_pos S with hS0 | hSpos
  · subst hS0
    rw [Nat.mul_zero]
    have hscal : ((List.range P).flatMap fun i =>
        if size.1 ≤ (morton_decode i).1 ∨ size.2 ≤ (morton_decode i).2 then
          ([] : List Dispatch)
        else
          (List.range 0).map fun j =>
            ({ pos := ((morton_decode i).1 + offset.1,
                       (morton_decode i).2 + offset.2),
               sample_index := j, diff_scale_arg := dsa } : Dispatch)) =
        [] := by
      induction (List.range P) with
      | nil => rfl
      | cons a l ihl =>
        rw [List.flatMap_cons, ihl, List.append_nil, List.range_zero,
          List.map_nil, ite_self]
    rw [hscal]
    rfl
  · rw [range_mul_flatMap P S, List.map_flatMap, filter_map_flatMap,
      List.map_flatMap]
    refine congrArg (List.range P).flatMap (funext fun i => ?_)
    rw [List.map_map]
    by_cases hcond :
        size.1 ≤ (morton_decode i).1 ∨ size.2 ≤ (morton_decode i).2
    · have hact : (!(decide (size.1 ≤ (morton_decode i).1) ||
          decide (size.2 ≤ (morton_decode i).2))) = false := by
        rcases hcond with hc | hc <;> simp [hc]
      have hinner : (List.range S).map
          ((fun index =>
            ({ pos := ((morton_decode (index / S)).1 + offset.1,
                       (morton_decode (index / S)).2 + offset.2),
               sample_index := index % S, diff_scale_arg := dsa,
               active := !(decide (size.1 ≤ (morton_decode (index / S)).1) ||
                           decide (size.2 ≤ (morton_decode (index / S)).2)) }
              : PDispatch)) ∘ fun j => i * S + j) =
          (List.range S).map fun j =>
            ({ pos := ((morton_decode i).1 + offset.1,
                       (morton_decode i).2 + offset.2),
               sample_index := j, diff_scale_arg := dsa,
               active := false } : PDispatch) := by
        apply List.map_congr_left
        intro j hj
        rw [List.mem_range] at hj
        have hdiv : (i * S + j) / S = i := by
          rw [Nat.mul_comm, Nat.mul_add_div hSpos, Nat.div_eq_of_lt hj,
            Nat.add_zero]
        have hmod : (i * S + j) % S = j := by
          rw [Nat.mul_comm, Nat.mul_add_mod, Nat.mod_eq_of_lt hj]
        simp only [Function.comp]
        rw [hdiv, hmod, hact]
      rw [hinner, if_pos hcond, List.filter_map]
      have hfil : List.filter
          ((fun (e : PDispatch) => e.active) ∘ fun j =>
            ({ pos := ((morton_decode i).1 + offset.1,
                       (morton_decode i).2 + offset.2),
               sample_index := j, diff_scale_arg := dsa,
               active := false } : PDispatch)) (List.range S) = [] :=
        List.filter_eq_nil_iff.mpr (fun a _ => by simp [Function.comp])
      rw [hfil]
      rfl
    · have hact : (!(decide (size.1 ≤ (morton_decode i).1) ||
          decide (size.2 ≤ (morton_decode i).2))) = true := by
        push_neg at hcond
        simp [hcond.1, hcond.2]
      have hinner : (List.range S).map
          ((fun index =>
            ({ pos := ((morton_decode (index / S)).1 + offset.1,
                       (morton_decode (index / S)).2 + offset.2),
               sample_index := index % S, diff_scale_arg := dsa,
               active := !(decide (size.1 ≤ (morton_decode (index / S)).1) ||
                           decide (size.2 ≤ (morton_decode (index / S)).2)) }
              : PDispatch)) ∘ fun j => i * S + j) =
          (List.range S).map fun j =>
            ({ pos := ((morton_decode i).1 + offset.1,
                       (morton_decode i).2 + offset.2),
               sample_index := j, diff_scale_arg := dsa,
               active := true } : PDispatch) := by
        apply List.map_congr_left
        intro j hj
        rw [List.mem_range] at hj
        have hdiv : (i * S + j) / S = i := by
          rw [Nat.mul_comm, Nat.mul_add_div hSpos, Nat.div_eq_of_lt hj,
            Nat.add_zero]
        have hmod : (i * S + j) % S = j := by
          rw [Nat.mul_comm, Nat.mul_add_mod, Nat.mod_eq_of_lt hj]
        simp only [Function.comp]
        rw [hdiv, hmod, hact]
      rw [hinner, if_neg hcond, List.filter_map, List.map_map, List.map_map]
      have hkeep : (List.range S).filter
          ((fun (e : PDispatch) => e.active) ∘ fun j =>
            ({ pos := ((morton_decode i).1 + offset.1,
                       (morton_decode i).2 + offset.2),
               sample_index := j, diff_scale_arg := dsa,
               active := true } : PDispatch)) = List.range S := by
        apply List.filter_eq_self.mpr
        intro a _
        rfl
      rw [hkeep]
      rfl

/-- C9: for any block size, clipped extent and per-pass sample budget
(cancellation absent), the packet-mode tile sample loop dispatches —
on its active lanes — exactly the (pixel position, sample index)
pairs of the scalar loop, in the same Morton-then-sample order:
positions outside the clipped extent contribute in neither mode. -/
theorem render_block_modes_agree (m_block_size sampler_count : Nat)
    (offset size : Nat × Nat) (sample_count_arg : Nat) :
    (((render_block_packet m_block_size sampler_count offset size
          sample_count_arg).filter fun e => e.active).map
        fun e => (e.pos, e.sample_index)) =
      ((render_block_scalar m_block_size sampler_count offset size
          sample_count_arg).map fun e => (e.pos, e.sample_index)) :=
  packet_scalar_core (m_block_size * m_block_size)
    (render_block_sample_count sampler_count sample_count_arg)
    sampler_count offset size

end Integrator
